import Mathlib

/-!
Shallow embedding of the retrieval-and-reranking core of The Monk AI
(services/vector_store.py, services/llm_service.py, services/chat_service.py,
services/rag_pipeline.py) together with proofs about the claims on its
behaviour.

External collaborators (the Chroma vector index, the cross-encoder reranker,
the Groq LLM, the Google translator, the Whisper transcriber, the Mongo
session store) are modelled as function-valued parameters collected in a
`Collaborators` record; a call that can raise a Python exception is modelled
as an `Option`-returning function, `none` standing for the raised exception.
Python floats are modelled by `ℚ` (all scores that matter here, such as the
neutral 0.5, are exactly representable).
-/

namespace MonkAI

/-- Configuration constants from config/config.py (RAG settings). -/
def Config.TOP_K_RETRIEVAL : Nat := 15

/-- Rerank depth from config/config.py. -/
def Config.TOP_K_RERANK : Nat := 3

/-- A langchain `Document` as consumed by `VectorStore.rerank_documents`:
page content plus a string-keyed metadata dictionary (modelled as an
association list with distinct keys). -/
structure Document where
  page_content : String
  metadata : List (String × String)
deriving DecidableEq, Repr

/-- One element of the list returned by `VectorStore.rerank_documents`:
the dict `{'content': …, 'metadata': …, 'score': …, 'rank': …}`. -/
structure RankedResult where
  content : String
  metadata : List (String × String)
  score : ℚ
  rank : Nat
deriving DecidableEq, Repr

/-- The `(query, doc.page_content)` pairs handed to `self.reranker.predict`. -/
def mkPairs (query : String) (documents : List Document) : List (String × String) :=
  documents.map (fun doc => (query, doc.page_content))

/-- The list comprehension building the scored results in
`rerank_documents` (`for i, (doc, score) in enumerate(zip(documents, scores))`),
with `i` starting from the accumulator. -/
def scoredResults : Nat → List (Document × ℚ) → List RankedResult
  | _, [] => []
  | i, (doc, score) :: rest =>
    { content := doc.page_content, metadata := doc.metadata,
      score := score, rank := i + 1 } :: scoredResults (i + 1) rest

/-- The list comprehension in the `except` branch of `rerank_documents`
(`for i, doc in enumerate(documents[:top_k])` with the neutral score 0.5). -/
def neutralResults : Nat → List Document → List RankedResult
  | _, [] => []
  | i, doc :: rest =>
    { content := doc.page_content, metadata := doc.metadata,
      score := 1/2, rank := i + 1 } :: neutralResults (i + 1) rest

/-- Comparison used by the stable descending sort
`sorted(results, key=lambda x: x['score'], reverse=True)`:
`a` may come before `b` iff `a`'s score is at least `b`'s. -/
def scoreGE (a b : RankedResult) : Prop := b.score ≤ a.score

instance : DecidableRel scoreGE := fun a b => inferInstanceAs (Decidable (b.score ≤ a.score))

instance : IsTotal RankedResult scoreGE := ⟨fun a b => (le_total b.score a.score)⟩

instance : IsTrans RankedResult scoreGE := ⟨fun _ _ _ hab hbc => le_trans hbc hab⟩

/-- `VectorStore.rerank_documents(query, documents, top_k)`.
The cross-encoder call is the `predict` parameter; `predict … = none` models
`self.reranker.predict` raising, which lands in the `except` branch.
Python's `sorted` is a stable sort; `List.insertionSort scoreGE` inserts each
earlier element before later elements of equal score, which is exactly the
stable descending sort. -/
def rerank_documents (predict : List (String × String) → Option (List ℚ))
    (query : String) (documents : List Document) (top_k : Nat) : List RankedResult :=
  if documents.isEmpty then []
  else
    match predict (mkPairs query documents) with
    | some scores =>
        (List.insertionSort scoreGE (scoredResults 0 (documents.zip scores))).take top_k
    | none => neutralResults 0 (documents.take top_k)

/-- A single result dict returned by the google_search tool
(`{'query': …, 'snippets': […]}`). -/
structure SearchResult where
  query : String
  snippets : List String
deriving DecidableEq, Repr

/-- The external collaborators of the pipeline. A `none` result models the
underlying Python call raising an exception. `setOrder` models the
implementation-defined (hash-dependent) iteration order of a Python `set` as
used by `list(set(...))` in `get_book_recommendations`; theorems about it
assume only `validSetOrder`. -/
structure Collaborators where
  search : String → Option (List Document)
  predict : List (String × String) → Option (List ℚ)
  llmChat : String → String → Option String
  keywordLlm : String → Option String
  searchTool : Option (List String → Option (List (List SearchResult)))
  setOrder : List String → List String
  translator : String → Option String
  transcribe : String → Option String
  create_session : String → String → String

/-- What Python guarantees about `list(set(l))`: the result has no duplicates
and exactly the members of `l`; its order is unspecified. -/
def validSetOrder (f : List String → List String) : Prop :=
  ∀ l : List String, (f l).Nodup ∧ ∀ x, x ∈ f l ↔ x ∈ l

/-- The keyword-identification prompt f-string in
`LLMService.identify_and_explain_keywords`. -/
def keywordPrompt (text : String) : String :=
  "From the following text, identify a maximum of 3 key spiritual or Sanskrit terms that a beginner might not understand. List only the terms, separated by commas.\n\nText: \"" ++ text ++ "\"\n\nTerms:"

/-- Parsing of the LLM reply:
`[kw.strip() for kw in keywords_str.split(',') if kw.strip()]`
(with `keywords_str = response…content.strip()`). -/
def parseKeywords (resp : String) : List String :=
  ((resp.trim.splitOn ",").map String.trim).filter (fun kw => kw ≠ "")

/-- The search queries built for the keywords. -/
def mkQueries (keywords : List String) : List String :=
  keywords.map (fun kw => "what is the meaning of " ++ kw ++ " in hinduism")

/-- ASCII lower-casing of a string, modelling Python `str.lower()`. -/
def lowerStr (s : String) : String := String.mk (s.data.map Char.toLower)

/-- Helper for the substring test: does `hay` start with `needle`? -/
def startsWithL : List Char → List Char → Bool
  | [], _ => true
  | _ :: _, [] => false
  | a :: as, b :: bs => a == b && startsWithL as bs

/-- Python's `needle in hay` substring test on character lists. -/
def containsL (needle : List Char) : List Char → Bool
  | [] => needle.isEmpty
  | b :: bs => startsWithL needle (b :: bs) || containsL needle bs

/-- `next((res for res in search_results if keyword.lower() in res.get('query','').lower()), None)`. -/
def findResultFor (kw : String) (results : List SearchResult) : Option SearchResult :=
  results.find? (fun res => containsL (lowerStr kw).data (lowerStr res.query).data)

/-- Python `str.title()` (restricted to ASCII letters): upper-case a letter
that does not follow a letter, lower-case the other letters. The boolean
accumulator records whether the previous character was a letter. -/
def titleCaseGo : Bool → List Char → List Char
  | _, [] => []
  | prevAlpha, c :: cs =>
    (if c.isAlpha then (if prevAlpha then c.toLower else c.toUpper) else c)
      :: titleCaseGo c.isAlpha cs

/-- Python `str.title()` on a string. -/
def titleCase (s : String) : String := String.mk (titleCaseGo false s.data)

/-- The explanation-building loop of `identify_and_explain_keywords`: for each
keyword, the first snippet of the matching search result, else the fixed
"Meaning not found." marker. The Python dict keyed by `keyword.title()` is
modelled as an association list in insertion order. -/
def explanationsFor (keywords : List String) (search_results : List SearchResult) :
    List (String × String) :=
  keywords.map (fun kw =>
    match findResultFor kw search_results with
    | some res =>
      match res.snippets with
      | defn :: _ => (titleCase kw, defn)
      | [] => (titleCase kw, "Meaning not found.")
    | none => (titleCase kw, "Meaning not found."))

/-- `LLMService.identify_and_explain_keywords`. Returns `[]` (the empty dict)
when the google_search tool is absent; the body of the `try` block is fallible
(the Groq call and the search call can raise) and any such failure lands in
the `except` branch, which returns the empty dict. -/
def identify_and_explain_keywords (C : Collaborators) (text : String) :
    List (String × String) :=
  match C.searchTool with
  | none => []
  | some st =>
    let body : Option (List (String × String)) :=
      match C.keywordLlm (keywordPrompt text) with
      | none => none
      | some resp =>
        let keywords := parseKeywords resp
        if keywords.isEmpty then some []
        else
          match st (mkQueries keywords) with
          | none => none
          | some srl => some (explanationsFor keywords srl.flatten)
    match body with
    | some m => m
    | none => []

/-- Book names contributed to `get_book_recommendations` by the generator
`doc['metadata'].get('book_name') for doc in context_docs
if doc.get('metadata') and doc['metadata'].get('book_name')`:
an empty metadata dict is falsy, and a missing or empty book name is falsy. -/
def bookNamesOf (context_docs : List RankedResult) : List String :=
  context_docs.filterMap (fun doc =>
    if doc.metadata.isEmpty then none
    else
      match doc.metadata.lookup "book_name" with
      | some b => if b = "" then none else some b
      | none => none)

/-- `LLMService.get_book_recommendations`: `list(set(...))[:3]`, with the
set's iteration order abstracted as `setOrder`. -/
def get_book_recommendations (setOrder : List String → List String)
    (context_docs : List RankedResult) : List String :=
  if context_docs.isEmpty then []
  else (setOrder (bookNamesOf context_docs)).take 3

/-- One entry of the context serialization in `LLMService.create_prompt`. -/
def contextEntry (doc : RankedResult) : String :=
  "Source: " ++ ((doc.metadata.lookup "book_name").getD "Unknown") ++ " - " ++
    ((doc.metadata.lookup "chapter").getD "") ++ " " ++
    ((doc.metadata.lookup "section").getD "") ++
    "\nContent: " ++ doc.content

/-- The beginner prompt template of `create_prompt`. -/
def beginnerTemplate (context_text query : String) : String :=
  "You are The Monk AI, a helpful guide to Hindu philosophy for beginners.\nUse the following context from Hindu scriptures to answer the user's question.\nYour answer must be clear, simple, and directly based on the provided context.\nExplain any complex spiritual terms for a beginner.\nAlways cite the sources you used from the context.\nContext from Hindu scriptures:\n---\n"
    ++ context_text ++ "\n---\nUser Question: " ++ query ++
    "\nPlease provide a clear, direct answer. Be concise and educational for someone new to these concepts."

/-- The expert/default prompt template of `create_prompt` (the `else` branch). -/
def expertTemplate (context_text query : String) : String :=
  "You are The Monk AI, an advanced scholarly assistant for Hindu philosophy.\nUse the provided context from Hindu scriptures to give a detailed and nuanced answer to the user's question.\nYour analysis should be in-depth, referencing multiple sources from the context where applicable and discussing philosophical perspectives.\nUse appropriate Sanskrit terminology.\nAlways cite the specific sources used from the context.\nContext from Hindu scriptures:\n---\n"
    ++ context_text ++ "\n---\nUser Question: " ++ query ++
    "\nProvide a comprehensive and scholarly response based on the context."

/-- `LLMService.create_prompt`: `if mode == "beginner": … else: …` — every
mode other than "beginner" takes the `else` branch. -/
def create_prompt (query : String) (context_docs : List RankedResult) (mode : String) :
    String :=
  let context_text := String.intercalate "\n\n" (context_docs.map contextEntry)
  if mode = "beginner" then beginnerTemplate context_text query
  else expertTemplate context_text query

/-- A citation dict built by `LLMService.extract_citations`. The Python key
"section" is spelt `sectionName` because `section` is a Lean keyword. -/
structure Citation where
  book : String
  chapter : String
  sectionName : String
  verse : String
  content_preview : String
deriving DecidableEq, Repr

/-- Python string slicing `s[:n]` by characters. -/
def strTake (s : String) (n : Nat) : String := String.mk (s.data.take n)

/-- `LLMService.extract_citations`. -/
def extract_citations (context_docs : List RankedResult) : List Citation :=
  context_docs.map (fun doc =>
    { book := (doc.metadata.lookup "book_name").getD "Unknown Source",
      chapter := (doc.metadata.lookup "chapter").getD "",
      sectionName := (doc.metadata.lookup "section").getD "",
      verse := (doc.metadata.lookup "verse_number").getD "",
      content_preview := strTake doc.content 100 ++ "..." })

/-- The system message of the generation chat call. -/
def systemMessage : String :=
  "You are The Monk AI, an expert in Hindu philosophy. Provide accurate, respectful, and well-cited responses based on the context given."

/-- The dict returned by `LLMService.generate_response`. -/
structure GenResult where
  response : String
  citations : List Citation
  recommendations : List String
  keywords_explained : Option (List (String × String))
deriving Repr

/-- `LLMService.generate_response`. A failing Groq chat call re-raises
(`none`); on success the citations and recommendations are derived from the
evidence list, and the keyword enrichment runs only in beginner mode
(`keywords_explained = None` otherwise). -/
def generate_response (C : Collaborators) (query : String)
    (context_docs : List RankedResult) (mode : String) : Option GenResult :=
  match C.llmChat systemMessage (create_prompt query context_docs mode) with
  | none => none
  | some response_text =>
    some { response := response_text,
           citations := extract_citations context_docs,
           recommendations := get_book_recommendations C.setOrder context_docs,
           keywords_explained :=
             if mode = "beginner" then some (identify_and_explain_keywords C response_text)
             else none }

/-- Whitespace test used by Python's `str.strip()` / `str.split()`
(restricted to the ASCII whitespace recognised by `Char.isWhitespace`). -/
def isWS (c : Char) : Bool := c.isWhitespace

/-- Python `str.strip()` on a character list. -/
def pyStripChars (s : List Char) : List Char :=
  ((s.dropWhile isWS).reverse.dropWhile isWS).reverse

/-- Python `str.strip()` on a string. -/
def pyStrip (s : String) : String := String.mk (pyStripChars s.data)

/-- The fixed marker returned by `translate_to_hindi` on a translation
failure ("translation unavailable" in Hindi). -/
def hindiUnavailable : String := "अनुवाद अनुपलब्ध है"

/-- `LLMService.translate_to_hindi`: empty or whitespace-only input yields
`""`; a raising translation call yields the fixed marker. -/
def translate_to_hindi (translator : String → Option String) (text : String) : String :=
  if pyStrip text = "" then ""
  else
    match translator text with
    | some t => t
    | none => hindiUnavailable

/-- Python `s.rsplit(' ', 1)[0]`: everything before the last space character
when one exists, the whole string otherwise. -/
def beforeLastSpace (s : List Char) : List Char :=
  if ' ' ∈ s then ((s.reverse.dropWhile (fun c => c ≠ ' ')).tail).reverse else s

/-- Python `str.split()` (no argument): maximal runs of non-whitespace
characters, with whitespace runs discarded. -/
def pySplit : List Char → List (List Char)
  | [] => []
  | [c] => if isWS c then [] else [[c]]
  | c :: d :: cs =>
    if isWS c then pySplit (d :: cs)
    else if isWS d then [c] :: pySplit cs
    else
      match pySplit (d :: cs) with
      | [] => [[c]]
      | w :: ws => (c :: w) :: ws

/-- Python `' '.join(words)`. -/
def joinWords : List (List Char) → List Char
  | [] => []
  | [w] => w
  | w :: ws => w ++ ' ' :: joinWords ws

/-- `ChatService.generate_session_title` on a character list:
strip, truncate `>50`-character titles at the last space of the first 50
characters and append "...", collapse whitespace, default to "New Chat". -/
def genTitleChars (first_message : List Char) : List Char :=
  let t1 := pyStripChars first_message
  let t2 :=
    if 50 < t1.length then beforeLastSpace (t1.take 50) ++ ['.', '.', '.']
    else t1
  let t3 := joinWords (pySplit (t2.map (fun c => if c = '\n' then ' ' else c)))
  if t3.isEmpty then "New Chat".data else t3

/-- `ChatService.generate_session_title`. -/
def generate_session_title (first_message : String) : String :=
  String.mk (genTitleChars first_message.data)

/-- The fixed fallback answer of `RAGPipeline.process_query` for an empty
retrieval. -/
def fallbackAnswer : String :=
  "I could not find relevant information in the scriptures to answer your question."

/-- The fixed English clarification answer of `process_voice_query`. -/
def clarifyAnswerEN : String :=
  "I couldn't understand what you said. Could you please speak clearly?"

/-- The fixed Hindi clarification answer of `process_voice_query`. -/
def clarifyAnswerHI : String :=
  "मुझे समझ नहीं आया कि आपने क्या कहा। क्या आप कृपया स्पष्ट रूप से बोल सकते हैं?"

/-- `QueryRequest` from models/database.py (the fields the pipeline reads). -/
structure QueryRequest where
  query : String
  mode : String
  session_id : Option String

/-- `QueryResponse` from models/database.py; `keywords_explained` defaults to
`None` when not passed. -/
structure QueryResponse where
  answer : String
  hindi_translation : String
  citations : List Citation
  recommendations : List String
  keywords_explained : Option (List (String × String))
  session_id : String
deriving DecidableEq, Repr

/-- Python `session_id or ""` on an optional string (both `None` and `""` are
falsy, and both yield `""`). -/
def pyOrEmpty : Option String → String
  | none => ""
  | some s => s

/-- `RAGPipeline.handle_chat_session`, reduced to its returned session id:
`if not session_id:` creates a new session (both `None` and `""` are falsy)
titled from the first user message. The two `add_message_to_session` appends
are persistence side effects with unused boolean results and are not
modelled. -/
def handle_chat_session (C : Collaborators) (user_id : String)
    (session_id : Option String) (query : String) : String :=
  match session_id with
  | none => C.create_session user_id (generate_session_title query)
  | some s =>
    if s = "" then C.create_session user_id (generate_session_title query) else s

/-- `VectorStore.search_and_rerank`: similarity search (whose failure
re-raises) followed by `rerank_documents` at `Config.TOP_K_RERANK`. -/
def search_and_rerank (C : Collaborators) (query : String) :
    Option (List RankedResult) :=
  match C.search query with
  | none => none
  | some docs => some (rerank_documents C.predict query docs Config.TOP_K_RERANK)

/-- `RAGPipeline.process_query`. Empty retrieval short-circuits to the fixed
fallback response (whose Hindi text still goes through the translator);
otherwise generation, translation and session handling run, and a failing
generation re-raises. -/
def process_query (C : Collaborators) (req : QueryRequest) (user_id : String) :
    Option QueryResponse :=
  match search_and_rerank C req.query with
  | none => none
  | some relevant_docs =>
    if relevant_docs.isEmpty then
      some { answer := fallbackAnswer,
             hindi_translation := translate_to_hindi C.translator fallbackAnswer,
             citations := [], recommendations := [], keywords_explained := none,
             session_id := pyOrEmpty req.session_id }
    else
      match generate_response C req.query relevant_docs req.mode with
      | none => none
      | some llm_response =>
        some { answer := llm_response.response,
               hindi_translation := translate_to_hindi C.translator llm_response.response,
               citations := llm_response.citations,
               recommendations := llm_response.recommendations,
               keywords_explained := llm_response.keywords_explained,
               session_id := handle_chat_session C user_id req.session_id req.query }

/-- `RAGPipeline.process_voice_query`: transcription (whose failure
re-raises), then the fixed bilingual clarification response for an empty or
whitespace-only transcription, else the normal query pipeline. The temporary
audio file removal in the `finally` block is a file-system side effect and is
not modelled. -/
def process_voice_query (C : Collaborators) (audio_file_path : String)
    (mode : String) (user_id : String) (session_id : Option String) :
    Option QueryResponse :=
  match C.transcribe audio_file_path with
  | none => none
  | some query_text =>
    if pyStrip query_text = "" then
      some { answer := clarifyAnswerEN,
             hindi_translation := clarifyAnswerHI,
             citations := [], recommendations := [], keywords_explained := none,
             session_id := pyOrEmpty session_id }
    else
      process_query C { query := query_text, mode := mode, session_id := session_id } user_id

/-! Lemmas about the enumerated result lists of `rerank_documents`. -/

/-- Every item produced by `scoredResults i l` records in `rank` its 1-based
position in the enumeration (offset by `i`) and copies content, metadata and
score from the corresponding input pair. -/
theorem scoredResults_mem {it : RankedResult} :
    ∀ {l : List (Document × ℚ)} {i : Nat}, it ∈ scoredResults i l →
      ∃ j d s, l[j]? = some (d, s) ∧ it.rank = i + j + 1 ∧
        it.content = d.page_content ∧ it.metadata = d.metadata ∧ it.score = s := by
  intro l
  induction l with
  | nil => intro i h; simp [scoredResults] at h
  | cons p rest ih =>
    intro i h
    obtain ⟨d, s⟩ := p
    rcases List.mem_cons.mp h with rfl | h'
    · exact ⟨0, d, s, by simp, by simp, rfl, rfl, rfl⟩
    · obtain ⟨j, d', s', h1, h2, h3⟩ := ih h'
      exact ⟨j + 1, d', s', by simpa using h1, by omega, h3⟩

/-- The ranks of `scoredResults i l` are exactly `i+1, …, i+l.length`. -/
theorem scoredResults_map_rank :
    ∀ (l : List (Document × ℚ)) (i : Nat),
      (scoredResults i l).map (fun r => r.rank) = List.range' (i + 1) l.length := by
  intro l
  induction l with
  | nil => intro i; simp [scoredResults]
  | cons p rest ih =>
    intro i
    obtain ⟨d, s⟩ := p
    simp [scoredResults, List.range'_succ, ih]

/-- The ranks of `scoredResults i l` are strictly increasing along the list. -/
theorem scoredResults_pairwise_rank (l : List (Document × ℚ)) (i : Nat) :
    List.Pairwise (fun a b : RankedResult => a.rank < b.rank) (scoredResults i l) := by
  have h := List.pairwise_lt_range' (i + 1) l.length
  rw [← scoredResults_map_rank l i] at h
  exact (List.pairwise_map).mp h

/-- Scores of the degraded results are uniformly the neutral 0.5. -/
theorem neutralResults_map_score :
    ∀ (l : List Document) (i : Nat),
      (neutralResults i l).map (fun r => r.score) = List.replicate l.length (1/2 : ℚ) := by
  intro l
  induction l with
  | nil => intro i; simp [neutralResults]
  | cons d rest ih => intro i; simp [neutralResults, List.replicate_succ, ih]

/-- Contents of the degraded results are the input contents in order. -/
theorem neutralResults_map_content :
    ∀ (l : List Document) (i : Nat),
      (neutralResults i l).map (fun r => r.content) = l.map (fun d => d.page_content) := by
  intro l
  induction l with
  | nil => intro i; simp [neutralResults]
  | cons d rest ih => intro i; simp [neutralResults, ih]

/-- Ranks of the degraded results are `i+1, …, i+l.length` in order. -/
theorem neutralResults_map_rank :
    ∀ (l : List Document) (i : Nat),
      (neutralResults i l).map (fun r => r.rank) = List.range' (i + 1) l.length := by
  intro l
  induction l with
  | nil => intro i; simp [neutralResults]
  | cons d rest ih => intro i; simp [neutralResults, List.range'_succ, ih]

/-! Stability of the descending sort with respect to the original ranks. -/

/-- Sorted-descending-with-stable-ties relation: scores are non-increasing
and equal scores keep the original (rank) order. -/
def stabRel (a b : RankedResult) : Prop :=
  b.score ≤ a.score ∧ (a.score = b.score → a.rank < b.rank)

/-- Inserting an element whose rank precedes every rank of `l` preserves the
stable-descending invariant. -/
theorem orderedInsert_stabRel {x : RankedResult} :
    ∀ {l : List RankedResult}, List.Pairwise stabRel l →
      (∀ y ∈ l, x.score = y.score → x.rank < y.rank) →
      List.Pairwise stabRel (List.orderedInsert scoreGE x l) := by
  intro l
  induction l with
  | nil => intro _ _; simp [List.orderedInsert, List.pairwise_cons]
  | cons y ys ih =>
    intro hl hx
    rw [List.orderedInsert]
    by_cases h : scoreGE x y
    · rw [if_pos h]
      refine List.pairwise_cons.mpr ⟨?_, hl⟩
      intro z hz
      rcases List.mem_cons.mp hz with rfl | hz'
      · exact ⟨h, hx z (List.mem_cons_self _ _)⟩
      · have hyz := (List.pairwise_cons.mp hl).1 z hz'
        exact ⟨le_trans hyz.1 h, hx z (List.mem_cons_of_mem y hz')⟩
    · rw [if_neg h]
      have hxy : x.score < y.score := by
        have := h
        unfold scoreGE at this
        exact lt_of_not_le this
      refine List.pairwise_cons.mpr ⟨?_, ?_⟩
      · intro z hz
        rcases (List.mem_orderedInsert scoreGE).mp hz with rfl | hz'
        · exact ⟨le_of_lt hxy, fun hsc => absurd hsc.symm (ne_of_lt hxy)⟩
        · exact (List.pairwise_cons.mp hl).1 z hz'
      · exact ih (List.pairwise_cons.mp hl).2
          (fun z hz => hx z (List.mem_cons_of_mem y hz))

/-- The stable insertion sort of a list with strictly increasing ranks
produces a stable-descending list: scores non-increasing, ties in original
order. -/
theorem insertionSort_stabRel :
    ∀ {l : List RankedResult},
      List.Pairwise (fun a b : RankedResult => a.rank < b.rank) l →
      List.Pairwise stabRel (List.insertionSort scoreGE l) := by
  intro l
  induction l with
  | nil => intro _; simp [List.insertionSort]
  | cons x xs ih =>
    intro hl
    rw [List.insertionSort]
    refine orderedInsert_stabRel (ih (List.pairwise_cons.mp hl).2) ?_
    intro y hy _
    exact (List.pairwise_cons.mp hl).1 y ((List.perm_insertionSort scoreGE xs).subset hy)

/-- Sample documents used by concrete witnesses and counterexamples. -/
def cDocA : Document := { page_content := "passage A", metadata := [("book_name", "A")] }

/-- Second sample document. -/
def cDocB : Document := { page_content := "passage B", metadata := [("book_name", "B")] }

/-- Third sample document (same book as `cDocA`). -/
def cDocC : Document := { page_content := "passage C", metadata := [("book_name", "A")] }

/-- C1, as stated, is false: `rank` is assigned from the original retrieval
position BEFORE the descending sort, so the returned sequence's rank fields
are not increasing along the output. With two candidates scored 0 and 1 the
output ranks are [2, 1]. -/
theorem C1_counterexample :
    ¬ List.Pairwise (fun a b : RankedResult => a.rank < b.rank)
      (rerank_documents (fun _ => some [0, 1]) "What is karma?" [cDocA, cDocB]
        Config.TOP_K_RERANK) := by decide

/-- C1 amended: in the successfully reranked sequence every item's `rank` is
its 1-based position in the ORIGINAL candidate order (so ranks are 1-based
and pairwise distinct but not, in general, increasing along the output), and
the sequence itself is ordered by non-increasing relevance score. -/
theorem C1_amended_rank_semantics (predict : List (String × String) → Option (List ℚ))
    (query : String) (ds : List Document) (scores : List ℚ) (top_k : Nat)
    (hp : predict (mkPairs query ds) = some scores)
    (_hlen : scores.length = ds.length) :
    (∀ it ∈ rerank_documents predict query ds top_k,
        ∃ j d, ds[j]? = some d ∧ it.rank = j + 1 ∧
          it.content = d.page_content ∧ it.metadata = d.metadata) ∧
    ((rerank_documents predict query ds top_k).map (fun r => r.rank)).Nodup ∧
    List.Pairwise (fun a b : RankedResult => b.score ≤ a.score)
      (rerank_documents predict query ds top_k) := by
  by_cases hds : ds.isEmpty
  · simp [rerank_documents, hds]
  · have hout : rerank_documents predict query ds top_k =
        (List.insertionSort scoreGE (scoredResults 0 (ds.zip scores))).take top_k := by
      simp [rerank_documents, hds, hp]
    rw [hout]
    refine ⟨?_, ?_, ?_⟩
    · intro it hit
      have hit' : it ∈ List.insertionSort scoreGE (scoredResults 0 (ds.zip scores)) :=
        (List.take_sublist _ _).subset hit
      have hit'' : it ∈ scoredResults 0 (ds.zip scores) :=
        (List.perm_insertionSort scoreGE _).subset hit'
      obtain ⟨j, d, s, h1, h2, h3, h4, _⟩ := scoredResults_mem hit''
      exact ⟨j, d, (List.getElem?_zip_eq_some.mp h1).1, by omega, h3, h4⟩
    · have hperm : List.Perm
          ((List.insertionSort scoreGE (scoredResults 0 (ds.zip scores))).map
            (fun r => r.rank))
          ((scoredResults 0 (ds.zip scores)).map (fun r => r.rank)) :=
        (List.perm_insertionSort scoreGE _).map _
      have hnodup : ((List.insertionSort scoreGE (scoredResults 0 (ds.zip scores))).map
          (fun r => r.rank)).Nodup := by
        refine hperm.symm.nodup ?_
        rw [scoredResults_map_rank]
        exact List.nodup_range' _ _
      exact hnodup.sublist ((List.take_sublist _ _).map (fun r : RankedResult => r.rank))
    · have hsorted : List.Pairwise scoreGE
          (List.insertionSort scoreGE (scoredResults 0 (ds.zip scores))) :=
        List.sorted_insertionSort scoreGE _
      exact (hsorted.sublist (List.take_sublist _ _)).imp (fun h => h)

/-- Witness for the amended C1 at a concrete input. -/
theorem C1_amended_rank_semantics_witness :
    (∀ it ∈ rerank_documents (fun _ => some [0, 1]) "What is karma?" [cDocA, cDocB]
        Config.TOP_K_RERANK,
        ∃ j d, [cDocA, cDocB][j]? = some d ∧ it.rank = j + 1 ∧
          it.content = d.page_content ∧ it.metadata = d.metadata) ∧
    ((rerank_documents (fun _ => some [0, 1]) "What is karma?" [cDocA, cDocB]
        Config.TOP_K_RERANK).map (fun r => r.rank)).Nodup ∧
    List.Pairwise (fun a b : RankedResult => b.score ≤ a.score)
      (rerank_documents (fun _ => some [0, 1]) "What is karma?" [cDocA, cDocB]
        Config.TOP_K_RERANK) :=
  C1_amended_rank_semantics (fun _ => some [0, 1]) "What is karma?" [cDocA, cDocB]
    [0, 1] Config.TOP_K_RERANK rfl rfl

/-- C2: for a non-empty query and any retrieved candidate list (with one
reranker score per candidate), `rerank_documents` returns at most `top_k`
items, with non-increasing scores, and candidates of equal score stay in
their original retrieval order (the `rank` field is the original 1-based
retrieval position, see `scoredResults_mem`). -/
theorem C2_rerank_bounded_sorted_stable
    (predict : List (String × String) → Option (List ℚ))
    (query : String) (ds : List Document) (scores : List ℚ) (top_k : Nat)
    (_hq : query ≠ "")
    (hp : predict (mkPairs query ds) = some scores)
    (_hlen : scores.length = ds.length) :
    (rerank_documents predict query ds top_k).length ≤ top_k ∧
    List.Pairwise stabRel (rerank_documents predict query ds top_k) ∧
    (∀ it ∈ rerank_documents predict query ds top_k,
        ∃ j d, ds[j]? = some d ∧ it.rank = j + 1 ∧ it.content = d.page_content) := by
  by_cases hds : ds.isEmpty
  · simp [rerank_documents, hds]
  · have hout : rerank_documents predict query ds top_k =
        (List.insertionSort scoreGE (scoredResults 0 (ds.zip scores))).take top_k := by
      simp [rerank_documents, hds, hp]
    rw [hout]
    refine ⟨List.length_take_le _ _, ?_, ?_⟩
    · exact (insertionSort_stabRel (scoredResults_pairwise_rank _ _)).sublist
        (List.take_sublist _ _)
    · intro it hit
      have hit' : it ∈ scoredResults 0 (ds.zip scores) :=
        (List.perm_insertionSort scoreGE _).subset ((List.take_sublist _ _).mem hit)
      obtain ⟨j, d, s, h1, h2, h3, _, _⟩ := scoredResults_mem hit'
      exact ⟨j, d, (List.getElem?_zip_eq_some.mp h1).1, by omega, h3⟩

/-- Witness for C2 at a concrete input with a tie between the first two
candidates. -/
theorem C2_rerank_bounded_sorted_stable_witness :
    (rerank_documents (fun _ => some [1, 1, 0]) "What is karma?" [cDocA, cDocB, cDocC]
        Config.TOP_K_RERANK).length ≤ Config.TOP_K_RERANK ∧
    List.Pairwise stabRel
      (rerank_documents (fun _ => some [1, 1, 0]) "What is karma?" [cDocA, cDocB, cDocC]
        Config.TOP_K_RERANK) ∧
    (∀ it ∈ rerank_documents (fun _ => some [1, 1, 0]) "What is karma?"
        [cDocA, cDocB, cDocC] Config.TOP_K_RERANK,
        ∃ j d, [cDocA, cDocB, cDocC][j]? = some d ∧ it.rank = j + 1 ∧
          it.content = d.page_content) :=
  C2_rerank_bounded_sorted_stable (fun _ => some [1, 1, 0]) "What is karma?"
    [cDocA, cDocB, cDocC] [1, 1, 0] Config.TOP_K_RERANK (by decide) rfl rfl

/-- C3: when the reranker's scoring call raises, `rerank_documents` still
returns a (total) result list: every item carries the neutral score 0.5, the
contents are the original candidates in retrieval order truncated to
`top_k`, and the ranks are 1-based in that order. -/
theorem C3_rerank_degrades_on_failure
    (predict : List (String × String) → Option (List ℚ))
    (query : String) (ds : List Document) (top_k : Nat)
    (hne : ds ≠ [])
    (hfail : predict (mkPairs query ds) = none) :
    ((rerank_documents predict query ds top_k).map (fun r => r.score) =
       List.replicate (ds.take top_k).length (1/2 : ℚ)) ∧
    ((rerank_documents predict query ds top_k).map (fun r => r.content) =
       (ds.take top_k).map (fun d => d.page_content)) ∧
    ((rerank_documents predict query ds top_k).map (fun r => r.rank) =
       List.range' 1 (ds.take top_k).length) := by
  have hds : ds.isEmpty = false := by
    cases ds with
    | nil => exact absurd rfl hne
    | cons a l => rfl
  have hout : rerank_documents predict query ds top_k =
      neutralResults 0 (ds.take top_k) := by
    simp [rerank_documents, hds, hfail]
  rw [hout, neutralResults_map_score, neutralResults_map_content,
    neutralResults_map_rank]
  exact ⟨rfl, rfl, rfl⟩

/-- Witness for C3 at a concrete input. -/
theorem C3_rerank_degrades_on_failure_witness :
    ([cDocA, cDocB, cDocC] ≠ ([] : List Document)) ∧
    (((rerank_documents (fun _ => none) "What is karma?" [cDocA, cDocB, cDocC]
        2).map (fun r => r.score) =
       List.replicate ([cDocA, cDocB, cDocC].take 2).length (1/2 : ℚ)) ∧
    ((rerank_documents (fun _ => none) "What is karma?" [cDocA, cDocB, cDocC]
        2).map (fun r => r.content) =
       ([cDocA, cDocB, cDocC].take 2).map (fun d => d.page_content)) ∧
    ((rerank_documents (fun _ => none) "What is karma?" [cDocA, cDocB, cDocC]
        2).map (fun r => r.rank) =
       List.range' 1 ([cDocA, cDocB, cDocC].take 2).length)) :=
  ⟨by decide,
    C3_rerank_degrades_on_failure (fun _ => none) "What is karma?"
      [cDocA, cDocB, cDocC] 2 (by decide) rfl⟩

/-- Concrete collaborators used by witnesses: empty search result, succeeding
generation, failing keyword LLM, absent search tool, failing translator. -/
def collabA : Collaborators :=
  { search := fun _ => some [],
    predict := fun _ => some [],
    llmChat := fun _ _ => some "an answer",
    keywordLlm := fun _ => none,
    searchTool := none,
    setOrder := fun l => l.dedup,
    translator := fun _ => none,
    transcribe := fun _ => some "",
    create_session := fun _ _ => "sid-1" }

/-- Variant of `collabA` whose keyword LLM succeeds but whose search tool is
present and raises. -/
def collabB : Collaborators :=
  { collabA with
    keywordLlm := fun _ => some "karma, dharma",
    searchTool := some (fun _ => none) }

/-- C4: if the vector search returns an empty list, the rerank step returns
an empty list and `process_query` returns the fixed fallback answer with
empty citations and recommendations; the result does not depend on the LLM
answer-generation collaborator, which is therefore never invoked. -/
theorem C4_empty_retrieval_fallback (C : Collaborators) (req : QueryRequest)
    (uid : String) (hs : C.search req.query = some []) :
    rerank_documents C.predict req.query [] Config.TOP_K_RERANK = [] ∧
    process_query C req uid =
      some { answer := fallbackAnswer,
             hindi_translation := translate_to_hindi C.translator fallbackAnswer,
             citations := [], recommendations := [], keywords_explained := none,
             session_id := pyOrEmpty req.session_id } ∧
    ∀ g : String → String → Option String,
      process_query { C with llmChat := g } req uid = process_query C req uid := by
  have h0 : rerank_documents C.predict req.query [] Config.TOP_K_RERANK = [] := rfl
  have h1 : process_query C req uid =
      some { answer := fallbackAnswer,
             hindi_translation := translate_to_hindi C.translator fallbackAnswer,
             citations := [], recommendations := [], keywords_explained := none,
             session_id := pyOrEmpty req.session_id } := by
    simp [process_query, search_and_rerank, hs, h0]
  refine ⟨h0, h1, ?_⟩
  intro g
  rw [h1]
  simp [process_query, search_and_rerank, hs, h0]

/-- Witness for C4 at a concrete input. -/
theorem C4_empty_retrieval_fallback_witness :
    (collabA.search "What is karma?" = some []) ∧
    (rerank_documents collabA.predict "What is karma?" [] Config.TOP_K_RERANK = [] ∧
    process_query collabA
        { query := "What is karma?", mode := "beginner", session_id := none } "u1" =
      some { answer := fallbackAnswer,
             hindi_translation := translate_to_hindi collabA.translator fallbackAnswer,
             citations := [], recommendations := [], keywords_explained := none,
             session_id := pyOrEmpty none } ∧
    ∀ g : String → String → Option String,
      process_query { collabA with llmChat := g }
          { query := "What is karma?", mode := "beginner", session_id := none } "u1" =
        process_query collabA
          { query := "What is karma?", mode := "beginner", session_id := none } "u1") :=
  ⟨rfl, C4_empty_retrieval_fallback collabA
    { query := "What is karma?", mode := "beginner", session_id := none } "u1" rfl⟩

/-- Ranked evidence items used in concrete recommendation examples. -/
def cRes1 : RankedResult :=
  { content := "passage A", metadata := [("book_name", "A")], score := 1, rank := 1 }

/-- Second evidence item, from a different book. -/
def cRes2 : RankedResult :=
  { content := "passage B", metadata := [("book_name", "B")], score := 1/2, rank := 2 }

/-- A set iteration order that is perfectly legal for a Python `set` (no
duplicates, same members) but reverses the first-seen order. -/
def badSetOrder : List String → List String := fun l => l.dedup.reverse

/-- C5, as stated, is false: the code builds the recommendations with
`list(set(...))`, whose iteration order is implementation-defined, so
first-occurrence order is NOT guaranteed. Under the legal set order
`badSetOrder`, evidence with books A then B yields ["B", "A"] while the
first-seen order is ["A", "B"]. -/
theorem C5_counterexample :
    validSetOrder badSetOrder ∧
    bookNamesOf [cRes1, cRes2] = ["A", "B"] ∧
    get_book_recommendations badSetOrder [cRes1, cRes2] = ["B", "A"] := by
  refine ⟨?_, by decide, by decide⟩
  intro l
  exact ⟨List.nodup_reverse.mpr (List.nodup_dedup l),
    fun x => by simp [badSetOrder, List.mem_reverse, List.mem_dedup]⟩

/-- C5 amended: for every legal set iteration order, the recommendations list
is deduplicated, has length at most 3, and contains only book names occurring
in the evidence — but its order is the set's unspecified order. -/
theorem C5_amended_recommendations (f : List String → List String)
    (hf : validSetOrder f) (docs : List RankedResult) :
    (get_book_recommendations f docs).Nodup ∧
    (get_book_recommendations f docs).length ≤ 3 ∧
    ∀ b ∈ get_book_recommendations f docs, b ∈ bookNamesOf docs := by
  unfold get_book_recommendations
  by_cases hd : docs.isEmpty
  · simp [hd]
  · rw [if_neg (by simp [hd])]
    refine ⟨(hf (bookNamesOf docs)).1.sublist (List.take_sublist _ _),
      List.length_take_le _ _, ?_⟩
    intro b hb
    exact ((hf (bookNamesOf docs)).2 b).mp ((List.take_sublist _ _).subset hb)

/-- `fun l => l.dedup` is a legal set iteration order. -/
theorem dedup_validSetOrder : validSetOrder (fun l => l.dedup) :=
  fun l => ⟨List.nodup_dedup l, fun _ => List.mem_dedup⟩

/-- Witness for the amended C5 at a concrete input. -/
theorem C5_amended_recommendations_witness :
    validSetOrder (fun l => l.dedup) ∧
    ((get_book_recommendations (fun l => l.dedup) [cRes1, cRes2]).Nodup ∧
    (get_book_recommendations (fun l => l.dedup) [cRes1, cRes2]).length ≤ 3 ∧
    ∀ b ∈ get_book_recommendations (fun l => l.dedup) [cRes1, cRes2],
      b ∈ bookNamesOf [cRes1, cRes2]) :=
  ⟨dedup_validSetOrder,
    C5_amended_recommendations (fun l => l.dedup) dedup_validSetOrder [cRes1, cRes2]⟩

/-- C6, as stated, is false: `create_prompt` performs no mode validation.
The unknown mode "advanced" silently produces exactly the expert prompt
variant instead of failing with a `ValidationError`. -/
theorem C6_counterexample :
    ("advanced" ≠ "beginner" ∧ "advanced" ≠ "expert") ∧
    create_prompt "What is karma?" [cRes1] "advanced" =
      create_prompt "What is karma?" [cRes1] "expert" :=
  ⟨by decide, rfl⟩

/-- C6 amended: every mode other than "beginner" — including unknown modes —
silently takes the `else` branch and yields the expert prompt variant,
byte-identical to mode "expert"; no error is raised. -/
theorem C6_amended_silent_expert_default (q : String) (docs : List RankedResult)
    (mode : String) (h : mode ≠ "beginner") :
    create_prompt q docs mode = create_prompt q docs "expert" := by
  unfold create_prompt
  rw [if_neg h, if_neg (by decide : ¬("expert" = "beginner"))]

/-- Witness for the amended C6 at a concrete unknown mode. -/
theorem C6_amended_silent_expert_default_witness :
    ("advanced" ≠ "beginner") ∧
    create_prompt "What is karma?" [cRes1, cRes2] "advanced" =
      create_prompt "What is karma?" [cRes1, cRes2] "expert" :=
  ⟨by decide,
    C6_amended_silent_expert_default "What is karma?" [cRes1, cRes2] "advanced" (by decide)⟩

/-- C8: a voice query whose transcription is empty or whitespace-only yields
the fixed bilingual clarification response with empty citations and
recommendations, and the result does not depend on the retrieval, scoring,
generation, keyword or session-creation collaborators — none of them is
invoked. -/
theorem C8_voice_blank_short_circuit (C : Collaborators)
    (audio mode uid : String) (sid : Option String) (t : String)
    (ht : C.transcribe audio = some t) (hblank : pyStrip t = "") :
    process_voice_query C audio mode uid sid =
      some { answer := clarifyAnswerEN, hindi_translation := clarifyAnswerHI,
             citations := [], recommendations := [], keywords_explained := none,
             session_id := pyOrEmpty sid } ∧
    ∀ (s : String → Option (List Document))
      (p : List (String × String) → Option (List ℚ))
      (g : String → String → Option String)
      (kl : String → Option String)
      (cs : String → String → String),
      process_voice_query
        { C with search := s, predict := p, llmChat := g, keywordLlm := kl,
                 create_session := cs } audio mode uid sid =
        process_voice_query C audio mode uid sid := by
  have h1 : process_voice_query C audio mode uid sid =
      some { answer := clarifyAnswerEN, hindi_translation := clarifyAnswerHI,
             citations := [], recommendations := [], keywords_explained := none,
             session_id := pyOrEmpty sid } := by
    simp [process_voice_query, ht, hblank]
  refine ⟨h1, ?_⟩
  intro s p g kl cs
  rw [h1]
  simp [process_voice_query, ht, hblank]

/-- Witness for C8 at a concrete input (transcription is the empty string). -/
theorem C8_voice_blank_short_circuit_witness :
    (collabA.transcribe "audio.wav" = some "") ∧ (pyStrip "" = "") ∧
    (process_voice_query collabA "audio.wav" "beginner" "u1" none =
      some { answer := clarifyAnswerEN, hindi_translation := clarifyAnswerHI,
             citations := [], recommendations := [], keywords_explained := none,
             session_id := pyOrEmpty none } ∧
    ∀ (s : String → Option (List Document))
      (p : List (String × String) → Option (List ℚ))
      (g : String → String → Option String)
      (kl : String → Option String)
      (cs : String → String → String),
      process_voice_query
        { collabA with search := s, predict := p, llmChat := g, keywordLlm := kl,
                       create_session := cs } "audio.wav" "beginner" "u1" none =
        process_voice_query collabA "audio.wav" "beginner" "u1" none) :=
  ⟨rfl, rfl,
    C8_voice_blank_short_circuit collabA "audio.wav" "beginner" "u1" none "" rfl rfl⟩

/-- C9: each enrichment call catches its own failure and substitutes its
documented fallback. A failing keyword-LLM call or a failing search-tool call
makes `identify_and_explain_keywords` return the empty mapping, and a failing
translation call makes `translate_to_hindi` return the fixed Hindi
"translation unavailable" marker. -/
theorem C9_enrichment_fallbacks (A B : Collaborators) (text s resp : String)
    (st : List String → Option (List (List SearchResult)))
    (tr : String → Option String)
    (h1 : A.keywordLlm (keywordPrompt text) = none)
    (h2a : B.searchTool = some st)
    (h2b : B.keywordLlm (keywordPrompt text) = some resp)
    (h2c : st (mkQueries (parseKeywords resp)) = none)
    (h3 : tr s = none) (h4 : pyStrip s ≠ "") :
    identify_and_explain_keywords A text = [] ∧
    identify_and_explain_keywords B text = [] ∧
    translate_to_hindi tr s = hindiUnavailable := by
  refine ⟨?_, ?_, ?_⟩
  · unfold identify_and_explain_keywords
    cases hA : A.searchTool with
    | none => rfl
    | some st' => simp [h1]
  · unfold identify_and_explain_keywords
    rw [h2a]
    simp only [h2b]
    by_cases hk : (parseKeywords resp).isEmpty
    · simp [hk]
    · simp [hk, h2c]
  · unfold translate_to_hindi
    rw [if_neg h4, h3]

/-- Witness for C9 at concrete inputs. -/
theorem C9_enrichment_fallbacks_witness :
    (collabA.keywordLlm (keywordPrompt "What is karma?") = none) ∧
    (collabB.searchTool = some (fun _ => none)) ∧
    (collabB.keywordLlm (keywordPrompt "What is karma?") = some "karma, dharma") ∧
    (pyStrip "hello" ≠ "") ∧
    (identify_and_explain_keywords collabA "What is karma?" = [] ∧
    identify_and_explain_keywords collabB "What is karma?" = [] ∧
    translate_to_hindi (fun _ => none) "hello" = hindiUnavailable) :=
  ⟨rfl, rfl, rfl, by decide,
    C9_enrichment_fallbacks collabA collabB "What is karma?" "hello" "karma, dharma"
      (fun _ => none) (fun _ => none) rfl rfl rfl rfl rfl (by decide)⟩

/-- C10: in every successful generation with a mode other than "beginner",
the `keywords_explained` field of the result is `none` — the keyword
enrichment is attempted only in beginner mode. -/
theorem C10_keywords_only_beginner (C : Collaborators) (q : String)
    (docs : List RankedResult) (mode : String) (r : GenResult)
    (hmode : mode ≠ "beginner")
    (h : generate_response C q docs mode = some r) :
    r.keywords_explained = none := by
  unfold generate_response at h
  cases hc : C.llmChat systemMessage (create_prompt q docs mode) with
  | none => rw [hc] at h; exact absurd h (by simp)
  | some response_text =>
    rw [hc] at h
    simp only [Option.some.injEq] at h
    rw [← h]
    simp [hmode]

/-- Witness for C10 at a concrete successful expert-mode generation. -/
theorem C10_keywords_only_beginner_witness :
    ("expert" ≠ "beginner") ∧
    generate_response collabA "What is karma?" [cRes1] "expert" =
      some { response := "an answer",
             citations := extract_citations [cRes1],
             recommendations := get_book_recommendations collabA.setOrder [cRes1],
             keywords_explained := none } ∧
    ({ response := "an answer",
       citations := extract_citations [cRes1],
       recommendations := get_book_recommendations collabA.setOrder [cRes1],
       keywords_explained := none } : GenResult).keywords_explained = none :=
  ⟨by decide, rfl,
    C10_keywords_only_beginner collabA "What is karma?" [cRes1] "expert" _ (by decide) rfl⟩

/-! Lemmas about `pySplit`, `joinWords` and the session title. -/

/-- Pulling a head character out of the first word commutes with the join. -/
theorem joinWords_cons_cons (c : Char) (w : List Char) (ws : List (List Char)) :
    joinWords ((c :: w) :: ws) = c :: joinWords (w :: ws) := by
  cases ws with
  | nil => rfl
  | cons v vs => rfl

/-- Collapsing whitespace never lengthens a string. -/
theorem joinWords_pySplit_length_le (l : List Char) :
    (joinWords (pySplit l)).length ≤ l.length := by
  induction l using pySplit.induct with
  | case1 => simp [pySplit, joinWords]
  | case2 c h => simp [pySplit, h, joinWords]
  | case3 c h => simp [pySplit, h, joinWords]
  | case4 c d cs h ih =>
    simp only [pySplit, h, if_true]
    exact le_trans ih (by simp)
  | case5 c d cs hc hd ih =>
    simp only [pySplit, hc, hd, if_true, if_false, Bool.false_eq_true]
    cases hcs : pySplit cs with
    | nil => simp [joinWords]
    | cons w ws =>
      rw [hcs] at ih
      have hj : joinWords ([c] :: w :: ws) = c :: ' ' :: joinWords (w :: ws) := rfl
      rw [hj]
      simp only [List.length_cons]
      omega
  | case6 c d cs hc hd hnil ih =>
    simp only [pySplit, hc, hd, if_false, Bool.false_eq_true, hnil]
    simp [joinWords]
  | case7 c d cs hc hd w ws heq ih =>
    simp only [pySplit, hc, hd, if_false, Bool.false_eq_true, heq]
    rw [heq] at ih
    rw [joinWords_cons_cons]
    simp only [List.length_cons]
    simpa using ih

/-- A list that splits into no words is all whitespace. -/
theorem pySplit_eq_nil_all_ws :
    ∀ {l : List Char}, pySplit l = [] → ∀ c ∈ l, isWS c = true := by
  intro l
  induction l using pySplit.induct with
  | case1 => intro _ c hc; simp at hc
  | case2 c h => intro _ x hx; rw [List.mem_singleton.mp hx]; exact h
  | case3 c h => intro hcontr; rw [pySplit, if_neg (by simpa using h)] at hcontr; simp at hcontr
  | case4 c d cs h ih =>
    intro hnil x hx
    rw [pySplit, if_pos h] at hnil
    rcases List.mem_cons.mp hx with rfl | hx'
    · exact h
    · exact ih hnil x hx'
  | case5 c d cs hc hd ih =>
    intro hnil
    rw [pySplit, if_neg (by simpa using hc), if_pos hd] at hnil
    simp at hnil
  | case6 c d cs hc hd hnil ih =>
    intro hcontr
    rw [pySplit, if_neg (by simpa using hc), if_neg (by simpa using hd), hnil] at hcontr
    simp at hcontr
  | case7 c d cs hc hd w ws heq ih =>
    intro hcontr
    rw [pySplit, if_neg (by simpa using hc), if_neg (by simpa using hd), heq] at hcontr
    simp at hcontr

/-- A non-empty all-non-whitespace list is a single word. -/
theorem pySplit_no_ws :
    ∀ {b : List Char}, b ≠ [] → (∀ c ∈ b, isWS c = false) → pySplit b = [b] := by
  intro b
  induction b with
  | nil => intro h; exact absurd rfl h
  | cons c cs ih =>
    intro _ hbw
    cases cs with
    | nil => simp [pySplit, hbw c (List.mem_singleton.mpr rfl)]
    | cons d ds =>
      have hc : isWS c = false := hbw c (by simp)
      have hd : isWS d = false := hbw d (by simp)
      have hrec : pySplit (d :: ds) = [d :: ds] :=
        ih (by simp) (fun x hx => hbw x (List.mem_cons_of_mem c hx))
      rw [pySplit, if_neg (by simp [hc]), if_neg (by simp [hd]), hrec]

/-- A suffix stays a suffix after consing on the left. -/
theorem isSuffix_cons {b l : List Char} (c : Char) (h : b <:+ l) : b <:+ c :: l := by
  obtain ⟨t, ht⟩ := h
  exact ⟨c :: t, by rw [List.cons_append, ht]⟩

/-- Appending a non-empty run of non-whitespace characters leaves that run as
a suffix of the collapsed string. -/
theorem suffix_joinWords_pySplit (b : List Char) (hb : b ≠ [])
    (hbw : ∀ c ∈ b, isWS c = false) :
    ∀ a : List Char, b <:+ joinWords (pySplit (a ++ b)) := by
  have main : ∀ (n : Nat) (a : List Char), a.length ≤ n →
      b <:+ joinWords (pySplit (a ++ b)) := by
    intro n
    induction n with
    | zero =>
      intro a ha
      have haz : a = [] := List.eq_nil_of_length_eq_zero (Nat.le_zero.mp ha)
      subst haz
      rw [List.nil_append, pySplit_no_ws hb hbw]
      exact List.suffix_refl b
    | succ n ih =>
      intro a ha
      cases a with
      | nil =>
        rw [List.nil_append, pySplit_no_ws hb hbw]
        exact List.suffix_refl b
      | cons c a' =>
        have hne : a' ++ b ≠ [] := by
          intro hcontr
          exact hb (List.append_eq_nil.mp hcontr).2
        cases haa : a' ++ b with
        | nil => exact absurd haa hne
        | cons d rest =>
          rw [List.cons_append, haa]
          by_cases hc : isWS c = true
          · rw [pySplit, if_pos hc, ← haa]
            exact ih a' (by simpa using Nat.le_of_succ_le_succ ha)
          · by_cases hd : isWS d = true
            · cases a' with
              | nil =>
                rw [List.nil_append] at haa
                have : isWS d = false := hbw d (by rw [haa]; simp)
                rw [this] at hd
                simp at hd
              | cons e a₂ =>
                rw [List.cons_append] at haa
                have he : e = d := (List.cons.injEq _ _ _ _ ▸ haa).1
                have hrest : a₂ ++ b = rest := (List.cons.injEq _ _ _ _ ▸ haa).2
                rw [pySplit, if_neg hc, if_pos hd, ← hrest]
                have hsuffix := ih a₂ (by simp at ha; omega)
                cases hps : pySplit (a₂ ++ b) with
                | nil =>
                  rw [hps] at hsuffix
                  simp only [joinWords] at hsuffix
                  exact absurd (List.suffix_nil.mp hsuffix) hb
                | cons w ws =>
                  rw [hps] at hsuffix
                  have hj : joinWords ([c] :: w :: ws) = c :: ' ' :: joinWords (w :: ws) := rfl
                  rw [hj]
                  exact isSuffix_cons c (isSuffix_cons ' ' hsuffix)
            · rw [pySplit, if_neg hc, if_neg hd]
              have hsuffix := ih a' (by simpa using Nat.le_of_succ_le_succ ha)
              rw [haa] at hsuffix
              cases hps : pySplit (d :: rest) with
              | nil =>
                rw [hps] at hsuffix
                simp only [joinWords] at hsuffix
                exact absurd (List.suffix_nil.mp hsuffix) hb
              | cons w ws =>
                rw [hps] at hsuffix
                show b <:+ joinWords ((c :: w) :: ws)
                rw [joinWords_cons_cons]
                exact isSuffix_cons c hsuffix
  intro a
  exact main a.length a le_rfl

/-- `beforeLastSpace` returns a (possibly improper) initial part of its
input, so it never lengthens it. -/
theorem beforeLastSpace_length_le (s : List Char) :
    (beforeLastSpace s).length ≤ s.length := by
  unfold beforeLastSpace
  by_cases h : ' ' ∈ s
  · rw [if_pos h]
    calc (((s.reverse.dropWhile (fun c => c ≠ ' ')).tail).reverse).length
        = ((s.reverse.dropWhile (fun c => c ≠ ' ')).tail).length := List.length_reverse _
      _ ≤ (s.reverse.dropWhile (fun c => c ≠ ' ')).length := by
          rw [List.length_tail]; omega
      _ ≤ s.reverse.length := (List.dropWhile_sublist _).length_le
      _ = s.length := List.length_reverse _
  · rw [if_neg h]

/-- C7, as stated, is false: the generated title can exceed 50 characters.
`title[:50].rsplit(' ', 1)[0]` keeps all 50 characters when they contain no
space, and `+ "..."` then yields 53 characters. A 51-character single word is
a concrete failing input. -/
theorem C7_counterexample :
    50 < (String.mk (List.replicate 51 'a')).length ∧
    50 < (generate_session_title (String.mk (List.replicate 51 'a'))).length := by
  decide

/-- C7 amended: for every first message whose stripped form exceeds 50
characters, the generated title has at most 53 characters (50 kept characters
plus the appended "..."), it ends in "...", and whitespace runs are collapsed
by the split/join step. -/
theorem C7_amended_title_bound (m : String)
    (h : 50 < (pyStripChars m.data).length) :
    (generate_session_title m).length ≤ 53 ∧
    ['.', '.', '.'] <:+ (generate_session_title m).data := by
  have hdots_ne : ('.' :: '.' :: '.' :: []) ≠ ([] : List Char) := by simp
  have hdots_ws : ∀ c ∈ ('.' :: '.' :: '.' :: []), isWS c = false := by decide
  have hmap : (beforeLastSpace ((pyStripChars m.data).take 50) ++ ['.', '.', '.']).map
      (fun c => if c = '\n' then ' ' else c) =
      (beforeLastSpace ((pyStripChars m.data).take 50)).map
        (fun c => if c = '\n' then ' ' else c) ++ ['.', '.', '.'] := by
    rw [List.map_append]
    rfl
  have hsuf : ['.', '.', '.'] <:+ joinWords (pySplit
      ((beforeLastSpace ((pyStripChars m.data).take 50)).map
        (fun c => if c = '\n' then ' ' else c) ++ ['.', '.', '.'])) :=
    suffix_joinWords_pySplit _ hdots_ne hdots_ws _
  have hne : joinWords (pySplit
      ((beforeLastSpace ((pyStripChars m.data).take 50)).map
        (fun c => if c = '\n' then ' ' else c) ++ ['.', '.', '.'])) ≠ [] := by
    intro hz
    rw [hz] at hsuf
    exact hdots_ne (List.suffix_nil.mp hsuf)
  have hlen : (joinWords (pySplit
      ((beforeLastSpace ((pyStripChars m.data).take 50)).map
        (fun c => if c = '\n' then ' ' else c) ++ ['.', '.', '.']))).length ≤ 53 := by
    refine le_trans (joinWords_pySplit_length_le _) ?_
    rw [List.length_append, List.length_map]
    have h1 : (beforeLastSpace ((pyStripChars m.data).take 50)).length ≤ 50 :=
      le_trans (beforeLastSpace_length_le _) (List.length_take_le 50 _)
    simp only [List.length_cons, List.length_nil]
    omega
  have hform : genTitleChars m.data = joinWords (pySplit
      ((beforeLastSpace ((pyStripChars m.data).take 50)).map
        (fun c => if c = '\n' then ' ' else c) ++ ['.', '.', '.'])) := by
    unfold genTitleChars
    simp only [if_pos h, hmap]
    rw [if_neg]
    simpa [List.isEmpty_iff] using hne
  constructor
  · have heq : (generate_session_title m).length = (genTitleChars m.data).length := rfl
    rw [heq, hform]
    exact hlen
  · have heq : (generate_session_title m).data = genTitleChars m.data := rfl
    rw [heq, hform]
    exact hsuf

/-- Witness for the amended C7 at a concrete long single-word message. -/
theorem C7_amended_title_bound_witness :
    (50 < (pyStripChars (String.mk (List.replicate 51 'a')).data).length) ∧
    ((generate_session_title (String.mk (List.replicate 51 'a'))).length ≤ 53 ∧
    ['.', '.', '.'] <:+ (generate_session_title (String.mk (List.replicate 51 'a'))).data) :=
  ⟨by decide, C7_amended_title_bound (String.mk (List.replicate 51 'a')) (by decide)⟩

end MonkAI
